import Mathlib

/-!
Shallow embedding of `W3ChampAnalysis/tools/pe_analyzer.py`.

The script drives the `pefile` library: `pefile.PE(path)` parses the file
(headers and section table); the script then walks the parsed objects.  The
embedding represents the parsed `pefile` object as explicit data
(`PEData`), with `Option` marking attributes that may be absent (accessing
an absent attribute raises `AttributeError` in Python; the embedding routes
that to the code's `except AttributeError` handlers).  Byte strings are
`List Nat` (byte values); decoded text is `String`.
-/

/-- ASCII/UTF-8 decoding of a byte list.  Every byte the string scanner keeps
is in 0x20-0x7E, and pure-ASCII byte sequences always decode as UTF-8, so
the `UnicodeDecodeError` fallback in `extract_strings` is unreachable for
scanner output and decoding is byte-to-char. -/
def asciiString (bs : List Nat) : String :=
  String.mk (bs.map Char.ofNat)

/-- Python `hex(n)` for a nonnegative integer: `0x` followed by lowercase
hexadecimal digits. -/
def hexStr (n : Nat) : String :=
  "0x" ++ String.mk (Nat.toDigits 16 n)

/- ===================== String Extractor (extract_strings) ============== -/

/-- Membership in the character class `[ -~]` of the compiled pattern:
printable ASCII, 0x20 to 0x7E. -/
def isPrintable (b : Nat) : Bool :=
  32 ≤ b && b ≤ 126

/-- Scanning core of `re.findall` for the pattern `[ -~]{m,}`: split the
byte list into its maximal runs of printable bytes.  `cur` holds the bytes
of the run in progress, most recent first. -/
def runsAux : List Nat → List Nat → List (List Nat)
  | [], cur => if cur.isEmpty then [] else [cur.reverse]
  | b :: rest, cur =>
      if isPrintable b then
        runsAux rest (b :: cur)
      else if cur.isEmpty then
        runsAux rest []
      else
        cur.reverse :: runsAux rest []

/-- Embeds `string_pattern.findall(data)` for the pattern `[ -~]{minLen,}`: the
maximal printable runs of length at least `minLen`, in scan order (the
regex match is greedy, so each match is a whole maximal run, and runs
shorter than the bound produce no match). -/
def printableRuns (data : List Nat) (minLen : Nat) : List (List Nat) :=
  (runsAux data []).filter (fun r => minLen ≤ r.length)

/-- The membership test and append of
`if string not in strings: strings.append(string)`. -/
def insertNew (acc : List String) (s : String) : List String :=
  if s ∈ acc then acc else acc ++ [s]

/-- Embeds `PEAnalyzer.extract_strings(min_length=4)`: for each section's raw data,
find the printable runs of length `≥ min_length`, decode each (always
succeeds, see `asciiString`), and append it to the shared accumulator if it
is not already present.  The accumulator is shared across sections, so
deduplication is image-wide. -/
def extract_strings (sections : List (List Nat)) (minLen : Nat) : List String :=
  sections.foldl
    (fun acc data =>
      (printableRuns data minLen).foldl
        (fun acc2 r => insertNew acc2 (asciiString r)) acc)
    []

/-- Decoded strings of one section's qualifying runs, in scan order. -/
def sectionRuns (data : List Nat) (minLen : Nat) : List String :=
  (printableRuns data minLen).map asciiString

/-- All decoded qualifying runs of the image, grouped by section scan
order: the stream of strings `extract_strings` feeds to its dedup check. -/
def allRunStrings (sections : List (List Nat)) (minLen : Nat) : List String :=
  (sections.map (fun d => sectionRuns d minLen)).flatten

/-- First-occurrence deduplication: keep each string the first time it is
seen, preserving order. -/
def dedupFirst (l : List String) : List String :=
  l.foldl insertNew []

/- ===================== Export Table Parser (analyze_exports) =========== -/

/-- One entry of `pe.DIRECTORY_ENTRY_EXPORT.symbols`.  `name` is `none` for
an ordinal-only export (pefile sets `exp.name = None`); the empty string
models empty bytes `b''` (also falsy in Python). -/
structure ExportSymbol where
  name : Option String
  ordinal : Nat
deriving DecidableEq, Repr

/-- The value `if exp.name:` appends for one symbol, when any: the decoded
name when it is present and non-empty (Python truthiness of `None` and of
empty bytes), otherwise nothing — ordinal-only symbols are skipped and the
ordinal field is never read. -/
def exportLabel (e : ExportSymbol) : Option String :=
  match e.name with
  | some s => if s = "" then none else some s
  | none => none

/-- Embeds `PEAnalyzer.analyze_exports`: iterate `DIRECTORY_ENTRY_EXPORT.symbols`,
appending `exp.name.decode()` for each symbol with a truthy name.  `none`
input models a missing `DIRECTORY_ENTRY_EXPORT` attribute: the
`AttributeError` is caught and the accumulated (empty) list is recorded. -/
def analyze_exports (symbols : Option (List ExportSymbol)) : List String :=
  match symbols with
  | none => []
  | some syms =>
      syms.foldl
        (fun acc e =>
          match e.name with
          | some s => if s = "" then acc else acc ++ [s]
          | none => acc)
        []

/- ===================== Import Table Parser (analyze_imports) =========== -/

/-- One thunk entry `imp` of an import descriptor. `name = none` models
`imp.name is None`; `ordinal = none` models `imp.ordinal is None`. -/
structure ImportedSymbol where
  name : Option String
  ordinal : Option Nat
deriving DecidableEq, Repr

/-- One entry of `pe.DIRECTORY_ENTRY_IMPORT`.  `dll = none` models
`entry.dll is None` (an unresolvable module-name RVA): `entry.dll.decode()`
then raises `AttributeError`. -/
structure ImportEntry where
  dll : Option String
  imports : List ImportedSymbol
deriving DecidableEq, Repr

/-- One record `{'dll': ..., 'functions': ...}` of the imports result. -/
structure ImportModule where
  dll : String
  functions : List String
deriving DecidableEq, Repr

/-- The label the inner loop appends for one thunk, when any:
`if imp.name:` (truthy: present and non-empty) appends the decoded name;
`elif imp.ordinal:` (truthy: present and nonzero) appends
`f"Ordinal_{imp.ordinal}"`; otherwise nothing is appended. -/
def symbolLabel (s : ImportedSymbol) : Option String :=
  if (match s.name with | some n => !(n = "") | none => false) then
    s.name
  else
    match s.ordinal with
    | some o => if o = 0 then none else some ("Ordinal_" ++ toString o)
    | none => none

/-- The record built for one import entry whose `dll` decoded to `d`. -/
def entryModule (d : String) (e : ImportEntry) : ImportModule :=
  { dll := d, functions := e.imports.filterMap symbolLabel }

/-- The `for entry in self.pe.DIRECTORY_ENTRY_IMPORT:` loop with its
surrounding `try`/`except AttributeError`: entries are processed in order;
the first entry with `dll = none` raises inside the loop, the handler
catches it at table scope, and the records accumulated so far are what gets
recorded — later entries are never reached. -/
def processImportEntries : List ImportEntry → List ImportModule → List ImportModule
  | [], acc => acc
  | e :: rest, acc =>
      match e.dll with
      | none => acc
      | some d => processImportEntries rest (acc ++ [entryModule d e])

/-- Embeds `PEAnalyzer.analyze_imports`.  `none` input models a missing
`DIRECTORY_ENTRY_IMPORT` attribute (import data directory absent or empty):
the `AttributeError` is caught and the empty list is recorded. -/
def analyze_imports : Option (List ImportEntry) → List ImportModule
  | none => []
  | some entries => processImportEntries entries []

/- ===================== Resource Tree Walker (analyze_resources) ======== -/

/-- One entry of a pefile resource directory.  `dir` carries a nested
directory (`entry.directory.entries`); `dataEntry` carries a leaf data
descriptor (`entry.data.struct`).  Accessing `.directory` on a `dataEntry`
or `.data` on a `dir` raises `AttributeError`.  `name = some s` models
`hasattr(entry, 'name')` holding with value `s`. -/
inductive ResEntry : Type where
  | dir (name : Option String) (id : Nat) (children : List ResEntry) : ResEntry
  | dataEntry (name : Option String) (id : Nat) (offset : Nat) (size : Nat) : ResEntry

/-- Embeds `entry.name if hasattr(entry, 'name') else hex(entry.id)`. -/
def resLabel (name : Option String) (id : Nat) : String :=
  match name with
  | some s => s
  | none => hexStr id

/-- One record appended by the innermost loop of `analyze_resources`. -/
structure ResRecord where
  type : String
  id : String
  lang : String
  offset : String
  size : String
deriving DecidableEq, Repr

/-- Embeds the innermost loop, `for resource_lang in resource_id.directory.entries:`.
Each entry must carry leaf data (`resource_lang.data.struct`); a nested
directory there raises `AttributeError`, which aborts the whole walk
(`.error` carries the records accumulated before the abort). -/
def walkLangs (tLab iLab : String) :
    List ResEntry → List ResRecord → Except (List ResRecord) (List ResRecord)
  | [], acc => .ok acc
  | ResEntry.dir _ _ _ :: _, acc => .error acc
  | ResEntry.dataEntry _ i off sz :: rest, acc =>
      walkLangs tLab iLab rest
        (acc ++ [{ type := tLab, id := iLab, lang := hexStr i,
                   offset := hexStr off, size := hexStr sz }])

/-- Embeds the middle loop, `for resource_id in resource_type.directory.entries:`.
Each entry must carry a nested directory; a data entry at this level raises
`AttributeError` and aborts the walk. -/
def walkIds (tLab : String) :
    List ResEntry → List ResRecord → Except (List ResRecord) (List ResRecord)
  | [], acc => .ok acc
  | ResEntry.dataEntry _ _ _ _ :: _, acc => .error acc
  | ResEntry.dir n i cs :: rest, acc =>
      match walkLangs tLab (resLabel n i) cs acc with
      | .error acc2 => .error acc2
      | .ok acc2 => walkIds tLab rest acc2

/-- Embeds the outer loop, `for resource_type in self.pe.DIRECTORY_ENTRY_RESOURCE.entries:`. -/
def walkTypes :
    List ResEntry → List ResRecord → Except (List ResRecord) (List ResRecord)
  | [], acc => .ok acc
  | ResEntry.dataEntry _ _ _ _ :: _, acc => .error acc
  | ResEntry.dir n i cs :: rest, acc =>
      match walkIds (resLabel n i) cs acc with
      | .error acc2 => .error acc2
      | .ok acc2 => walkTypes rest acc2

/-- Embeds `PEAnalyzer.analyze_resources` with its `try`/`except AttributeError`:
`none` input models a missing `DIRECTORY_ENTRY_RESOURCE` attribute; an
`AttributeError` raised mid-walk is caught at function scope and the
records accumulated so far are recorded. -/
def analyze_resources : Option (List ResEntry) → List ResRecord
  | none => []
  | some entries =>
      match walkTypes entries [] with
      | .ok recs => recs
      | .error recs => recs

/-- Truncation of the tree below depth 3: drop the children of any
directory sitting at the language level.  Entries at that level are only
ever read through `.id` and `.data`, never `.directory`. -/
def pruneLangEntry : ResEntry → ResEntry
  | ResEntry.dir n i _ => ResEntry.dir n i []
  | e => e

/-- Truncation applied to a name/id-level entry: its children are
language-level entries. -/
def pruneIdEntry : ResEntry → ResEntry
  | ResEntry.dir n i cs => ResEntry.dir n i (cs.map pruneLangEntry)
  | e => e

/-- Truncation applied to a type-level entry: its children are
name/id-level entries. -/
def pruneTypeEntry : ResEntry → ResEntry
  | ResEntry.dir n i cs => ResEntry.dir n i (cs.map pruneIdEntry)
  | e => e

/-- Truncation of a whole resource directory below the third level. -/
def truncateDepth3 (root : List ResEntry) : List ResEntry :=
  root.map pruneTypeEntry

/- ===================== Basic info (analyze_basic_info) ================= -/

/-- One decoded section header as recorded by `analyze_basic_info`,
plus the raw section bytes (`section.get_data()`) used by the string
scanner. -/
structure SectionData where
  name : List Nat
  virtualAddress : Nat
  virtualSize : Nat
  rawAddress : Nat
  rawSize : Nat
  characteristics : Nat
  data : List Nat
deriving DecidableEq, Repr

/-- Embeds `section.Name.decode().rstrip('\x00')`: decode the fixed-width name
field and strip all trailing NUL characters.  Decoding ASCII bytes is
byte-to-char, so stripping trailing NUL bytes before decoding is the same
as stripping trailing NUL characters after. -/
def rstripNul (l : List Nat) : List Nat :=
  (l.reverse.dropWhile (fun b => b == 0)).reverse

/-- The section name the code records. -/
def decode_section_name (nameBytes : List Nat) : String :=
  asciiString (rstripNul nameBytes)

/-- Modelled from the spec: "Decodes the name field by truncating at the
first NUL or at the fixed field width, whichever comes first."  Stated for
comparison with `decode_section_name`, the code's behaviour. -/
def specSectionName (nameBytes : List Nat) : String :=
  asciiString (nameBytes.takeWhile (fun b => b != 0))

/-- One record of `info['sections']`. -/
structure SectionInfo where
  name : String
  virtual_address : String
  virtual_size : String
  raw_address : String
  raw_size : String
  characteristics : String
deriving DecidableEq, Repr

/-- The `info` dict of `analyze_basic_info`. -/
structure BasicInfo where
  file_size : Nat
  machine : String
  timestamp : Nat
  characteristics : String
  subsystem : String
  dll_characteristics : String
  entry_point : String
  image_base : String
  sections : List SectionInfo
deriving DecidableEq, Repr

/- ===================== Analyzer state and run_analysis ================= -/

/-- The parsed `pefile.PE` object, as far as the script reads it. -/
structure PEData where
  machine : Nat
  timestamp : Nat
  characteristics : Nat
  subsystem : Nat
  dllCharacteristics : Nat
  entryPoint : Nat
  imageBase : Nat
  sections : List SectionData
  importEntries : Option (List ImportEntry)
  exportSymbols : Option (List ExportSymbol)
  resourceRoot : Option (List ResEntry)

/-- Embeds `PEAnalyzer.analyze_basic_info` (the file size comes from
`os.path.getsize`, outside the parsed object). -/
def analyze_basic_info (fileSize : Nat) (pe : PEData) : BasicInfo :=
  { file_size := fileSize
  , machine := hexStr pe.machine
  , timestamp := pe.timestamp
  , characteristics := hexStr pe.characteristics
  , subsystem := hexStr pe.subsystem
  , dll_characteristics := hexStr pe.dllCharacteristics
  , entry_point := hexStr pe.entryPoint
  , image_base := hexStr pe.imageBase
  , sections := pe.sections.map (fun s =>
      { name := decode_section_name s.name
      , virtual_address := hexStr s.virtualAddress
      , virtual_size := hexStr s.virtualSize
      , raw_address := hexStr s.rawAddress
      , raw_size := hexStr s.rawSize
      , characteristics := hexStr s.characteristics }) }

/-- Embeds `self.analysis_results`: a dict whose keys appear only once the
corresponding component has run (`none` = key absent). -/
structure AnalysisResults where
  basic_info : Option BasicInfo
  imports : Option (List ImportModule)
  exports : Option (List String)
  strings : Option (List String)
  resources : Option (List ResRecord)
deriving DecidableEq, Repr

/-- The fresh `analysis_results = {}` of `PEAnalyzer.__init__`. -/
def emptyResults : AnalysisResults :=
  { basic_info := none, imports := none, exports := none,
    strings := none, resources := none }

/-- The state change `self.analysis_results['strings'] = strings` performed
by one call of `extract_strings` on an analyzer whose loaded buffer has the
given sections. -/
def extractStringsUpdate (sections : List (List Nat)) (minLen : Nat)
    (res : AnalysisResults) : AnalysisResults :=
  { res with strings := some (extract_strings sections minLen) }

/-- Embeds `PEAnalyzer.run_analysis`.  `pe = none` models `pefile.PE(path)`
raising (invalid signature, section table past the buffer end, ...):
`load_pe` returns `False` and `run_analysis` returns `False` immediately,
before any component runs, leaving `analysis_results` empty.  Otherwise
every component runs on the loaded object and the method returns `True`. -/
def run_analysis (fileSize : Nat) (pe : Option PEData) : Bool × AnalysisResults :=
  match pe with
  | none => (false, emptyResults)
  | some p =>
      (true,
       { basic_info := some (analyze_basic_info fileSize p)
       , imports := some (analyze_imports p.importEntries)
       , exports := some (analyze_exports p.exportSymbols)
       , strings := some (extract_strings (p.sections.map (fun s => s.data)) 4)
       , resources := some (analyze_resources p.resourceRoot) })

/- ===================== Command surface (main) ========================== -/

/-- Observable outcome of one run of `main`: the process exit status, the
lines printed, and whether `save_analysis` wrote the report file. -/
structure MainOutcome where
  exitCode : Nat
  messages : List String
  reportWritten : Bool
deriving DecidableEq, Repr

/-- Embeds `main()`.  `argc` is `len(sys.argv)`; `pathExists` is
`os.path.exists(file_path)`; `stem` is `Path(file_path).stem`; `pe` is the
outcome of `pefile.PE(file_path)` as in `run_analysis`.  Python's
`sys.exit(1)` gives status 1; falling off the end of `main` gives status 0.
On load failure, `load_pe` prints the error and `main` prints
"Analysis failed" — and then returns normally, so the process exits 0.
(Named `mainRun` because Lean reserves `main` for an `IO` entry point.) -/
def mainRun (argc : Nat) (pathExists : Bool) (path stem : String)
    (fileSize : Nat) (pe : Option PEData) : MainOutcome :=
  if argc ≠ 2 then
    { exitCode := 1
    , messages := ["Usage: python pe_analyzer.py <pe_file>"]
    , reportWritten := false }
  else if !pathExists then
    { exitCode := 1
    , messages := ["File not found: " ++ path]
    , reportWritten := false }
  else if (run_analysis fileSize pe).1 then
    { exitCode := 0
    , messages := ["Analyzing PE file...",
                   "Analysis saved to: " ++ stem ++ "_analysis.txt"]
    , reportWritten := true }
  else
    { exitCode := 0
    , messages := ["Error loading PE file", "Analysis failed"]
    , reportWritten := false }


/- ===================== Helper lemmas =================================== -/

theorem mem_insertNew (acc : List String) (s x : String) :
    x ∈ insertNew acc s ↔ x ∈ acc ∨ x = s := by
  by_cases h : s ∈ acc
  · simp only [insertNew, if_pos h]
    exact ⟨Or.inl, fun hx => hx.elim id (fun he => he ▸ h)⟩
  · simp [insertNew, if_neg h]

theorem nodup_insertNew (acc : List String) (s : String) (h : acc.Nodup) :
    (insertNew acc s).Nodup := by
  by_cases hs : s ∈ acc
  · simpa [insertNew, if_pos hs] using h
  · simp only [insertNew, if_neg hs]
    rw [List.nodup_append]
    refine ⟨h, List.nodup_singleton s, ?_⟩
    intro a ha he
    simp only [List.mem_singleton] at he
    exact hs (he ▸ ha)

theorem foldl_insertNew_mem (l : List String) :
    ∀ (acc : List String) (x : String),
      x ∈ l.foldl insertNew acc ↔ x ∈ acc ∨ x ∈ l := by
  induction l with
  | nil => intro acc x; simp
  | cons s rest ih =>
    intro acc x
    rw [List.foldl_cons, ih, mem_insertNew]
    simp only [List.mem_cons]
    tauto

theorem foldl_insertNew_nodup (l : List String) :
    ∀ acc : List String, acc.Nodup → (l.foldl insertNew acc).Nodup := by
  induction l with
  | nil => intro acc h; simpa using h
  | cons s rest ih =>
    intro acc h
    rw [List.foldl_cons]
    exact ih _ (nodup_insertNew acc s h)

theorem foldl_insertNew_sublist (l : List String) :
    ∀ acc : List String, ∃ t, t.Sublist l ∧ l.foldl insertNew acc = acc ++ t := by
  induction l with
  | nil => intro acc; exact ⟨[], List.nil_sublist _, by simp⟩
  | cons s rest ih =>
    intro acc
    by_cases h : s ∈ acc
    · obtain ⟨t, ht, he⟩ := ih acc
      exact ⟨t, ht.cons s, by simp [insertNew, if_pos h, he]⟩
    · obtain ⟨t, ht, he⟩ := ih (acc ++ [s])
      refine ⟨s :: t, ht.cons₂ s, ?_⟩
      rw [List.foldl_cons]
      simp only [insertNew, if_neg h]
      rw [he, List.append_assoc]
      rfl

theorem extract_strings_foldl (n : Nat) (secs : List (List Nat)) :
    ∀ acc : List String,
      secs.foldl
        (fun acc2 data =>
          (printableRuns data n).foldl
            (fun acc3 r => insertNew acc3 (asciiString r)) acc2) acc
        = (allRunStrings secs n).foldl insertNew acc := by
  induction secs with
  | nil => intro acc; simp [allRunStrings]
  | cons d rest ih =>
    intro acc
    rw [List.foldl_cons]
    rw [ih]
    have h1 : (printableRuns d n).foldl
        (fun acc3 r => insertNew acc3 (asciiString r)) acc
        = (sectionRuns d n).foldl insertNew acc := by
      rw [sectionRuns, List.foldl_map]
    rw [h1]
    simp only [allRunStrings, List.map_cons, List.flatten_cons, List.foldl_append]

theorem extract_strings_eq_dedup (secs : List (List Nat)) (n : Nat) :
    extract_strings secs n = dedupFirst (allRunStrings secs n) := by
  rw [extract_strings, dedupFirst]
  exact extract_strings_foldl n secs []

theorem exports_foldl (syms : List ExportSymbol) :
    ∀ acc : List String,
      syms.foldl
        (fun acc e =>
          match e.name with
          | some s => if s = "" then acc else acc ++ [s]
          | none => acc) acc
        = acc ++ syms.filterMap exportLabel := by
  induction syms with
  | nil => intro acc; simp
  | cons e rest ih =>
    intro acc
    rw [List.foldl_cons]
    match he : e.name with
    | none => simp [he, ih, List.filterMap_cons, exportLabel]
    | some s =>
      by_cases hs : s = ""
      · simp [he, hs, ih, List.filterMap_cons, exportLabel]
      · simp [he, hs, ih, List.filterMap_cons, exportLabel]

theorem analyze_exports_eq_filterMap (syms : List ExportSymbol) :
    analyze_exports (some syms) = syms.filterMap exportLabel := by
  rw [analyze_exports]
  exact exports_foldl syms []

theorem processImportEntries_stops (bad : ImportEntry) (rest : List ImportEntry)
    (hbad : bad.dll = none) :
    ∀ (pre : List ImportEntry) (acc : List ImportModule),
      (∀ e ∈ pre, e.dll ≠ none) →
      processImportEntries (pre ++ bad :: rest) acc
        = acc ++ pre.filterMap (fun e => e.dll.map (fun d => entryModule d e)) := by
  intro pre
  induction pre with
  | nil =>
    intro acc _
    simp [processImportEntries, hbad]
  | cons e tl ih =>
    intro acc hpre
    have he : e.dll ≠ none := hpre e (List.mem_cons_self e tl)
    match hd : e.dll with
    | none => exact absurd hd he
    | some d =>
      simp only [List.cons_append, processImportEntries, hd, List.append_eq]
      rw [ih _ (fun x hx => hpre x (List.mem_cons_of_mem e hx))]
      simp [List.filterMap_cons, hd]

theorem dropWhile_zero_of_not_mem (s : List Nat) (h : 0 ∉ s) :
    s.dropWhile (fun b => b == 0) = s := by
  induction s with
  | nil => rfl
  | cons a tl ih =>
    have ha : a ≠ 0 := fun he => h (he ▸ List.mem_cons_self a tl)
    rw [List.dropWhile_cons]
    simp [ha]

theorem dropWhile_replicate_zero (s : List Nat) (k : Nat) :
    (List.replicate k 0 ++ s).dropWhile (fun b => b == 0)
      = s.dropWhile (fun b => b == 0) := by
  induction k with
  | zero => simp
  | succ m ih => simp [List.replicate_succ, List.dropWhile_cons, ih]

theorem rstripNul_pad (t : List Nat) (k : Nat) (h : 0 ∉ t) :
    rstripNul (t ++ List.replicate k 0) = t := by
  rw [rstripNul, List.reverse_append, List.reverse_replicate, dropWhile_replicate_zero,
    dropWhile_zero_of_not_mem t.reverse (by simpa using h), List.reverse_reverse]

theorem walkLangs_prune (tLab iLab : String) (ls : List ResEntry) :
    ∀ acc : List ResRecord,
      walkLangs tLab iLab (ls.map pruneLangEntry) acc = walkLangs tLab iLab ls acc := by
  induction ls with
  | nil => intro acc; rfl
  | cons e rest ih =>
    intro acc
    cases e with
    | dir n i cs => rfl
    | dataEntry n i off sz =>
      simp only [List.map_cons, pruneLangEntry, walkLangs]
      exact ih _

theorem walkIds_prune (tLab : String) (ls : List ResEntry) :
    ∀ acc : List ResRecord,
      walkIds tLab (ls.map pruneIdEntry) acc = walkIds tLab ls acc := by
  induction ls with
  | nil => intro acc; rfl
  | cons e rest ih =>
    intro acc
    cases e with
    | dataEntry n i off sz => rfl
    | dir n i cs =>
      simp only [List.map_cons, pruneIdEntry, walkIds]
      rw [walkLangs_prune]
      cases walkLangs tLab (resLabel n i) cs acc with
      | error acc2 => rfl
      | ok acc2 => exact ih _

theorem walkTypes_prune (ls : List ResEntry) :
    ∀ acc : List ResRecord,
      walkTypes (ls.map pruneTypeEntry) acc = walkTypes ls acc := by
  induction ls with
  | nil => intro acc; rfl
  | cons e rest ih =>
    intro acc
    cases e with
    | dataEntry n i off sz => rfl
    | dir n i cs =>
      simp only [List.map_cons, pruneTypeEntry, walkTypes]
      rw [walkIds_prune]
      cases walkIds (resLabel n i) cs acc with
      | error acc2 => rfl
      | ok acc2 => exact ih _

/- ===================== Claim theorems ================================== -/

set_option maxRecDepth 8192

/-- Section data of the spec's concrete String Extractor scenario: a
`.text` section of raw size 0x200 containing the ASCII bytes of `HELLO` at
raw offset 0x10 within the section, all other bytes zero. -/
def scenarioSection : List Nat :=
  List.replicate 16 0 ++ [72, 69, 76, 76, 79] ++ List.replicate 491 0

/-- C1 (corrected): the code records each qualifying run only as a decoded
string, deduplicated image-wide — not paired with a section index and byte
offset; on the spec's scenario buffer the extractor yields exactly the one
string `HELLO`.  The first conjunct characterises `extract_strings` as
first-occurrence deduplication of the decoded maximal printable runs of all
sections in scan order; the second settles the concrete scenario. -/
theorem C1_string_extractor :
    (∀ (secs : List (List Nat)) (n : Nat),
        extract_strings secs n = dedupFirst (allRunStrings secs n))
    ∧ extract_strings [scenarioSection] 4 = ["HELLO"] := by
  refine ⟨extract_strings_eq_dedup, ?_⟩
  rfl

/-- C1 counterexample: the claim records every run of every section (each
with its own section index and offset), so two sections each holding one
qualifying run must produce two recorded entries; the code produces one,
because its accumulator deduplicates across sections.  Here both sections
hold the single run `HEHE`. -/
theorem C1_counterexample :
    ¬ ((extract_strings [[72, 69, 72, 69], [72, 69, 72, 69]] 4).length
        = (([[72, 69, 72, 69], [72, 69, 72, 69]] : List (List Nat)).map
            (fun d => (printableRuns d 4).length)).sum) := by
  decide

/-- C2 (corrected): the code drops export symbols whose name is falsy
(`None` or empty) and records only the decoded names, never an ordinal;
with three named exports of ordinals 5, 6, 7 the result is exactly their
names in table order. -/
theorem C2_export_table :
    (∀ syms : List ExportSymbol,
        analyze_exports (some syms) = syms.filterMap exportLabel)
    ∧ analyze_exports (some
        [{ name := some "alpha", ordinal := 5 },
         { name := some "beta", ordinal := 6 },
         { name := some "gamma", ordinal := 7 }]) = ["alpha", "beta", "gamma"] :=
  ⟨analyze_exports_eq_filterMap, rfl⟩

/-- C2 counterexample: an export directory with one ordinal-only symbol
(ordinal 5, no name).  The claim includes it in the result with
`name = None`, so the resulting table would have one entry; the code's
`if exp.name:` filter skips it and the result is empty. -/
theorem C2_counterexample :
    (analyze_exports (some [{ name := none, ordinal := 5 }])).length ≠ 1 := by
  decide

/-- C3 (corrected): a malformed import entry (module-name RVA that pefile
could not resolve, `entry.dll = None`) does not only lose that entry — the
`AttributeError` is caught at whole-table scope, so the entries before it
are kept and every later entry of the table is absent from the result. -/
theorem C3_import_walk (pre : List ImportEntry) (bad : ImportEntry)
    (rest : List ImportEntry) (hpre : ∀ e ∈ pre, e.dll ≠ none)
    (hbad : bad.dll = none) :
    analyze_imports (some (pre ++ bad :: rest))
      = pre.filterMap (fun e => e.dll.map (fun d => entryModule d e)) := by
  simp only [analyze_imports]
  simpa using processImportEntries_stops bad rest hbad pre [] hpre

/-- C3 witness: one well-formed entry, then a malformed one, then another
well-formed one; only the first survives. -/
theorem C3_witness :
    (∀ e ∈ [({ dll := some "USER32.dll",
               imports := [{ name := some "MessageBoxA", ordinal := none }] } :
              ImportEntry)], e.dll ≠ none)
    ∧ ({ dll := none, imports := [] } : ImportEntry).dll = none
    ∧ analyze_imports (some
        ([{ dll := some "USER32.dll",
            imports := [{ name := some "MessageBoxA", ordinal := none }] }]
          ++ ({ dll := none, imports := [] } : ImportEntry)
            :: [{ dll := some "KERNEL32.dll", imports := [] }]))
      = [({ dll := some "USER32.dll",
            imports := [{ name := some "MessageBoxA", ordinal := none }] } :
            ImportEntry)].filterMap
          (fun e => e.dll.map (fun d => entryModule d e)) :=
  ⟨by decide, rfl,
   C3_import_walk
     [{ dll := some "USER32.dll",
        imports := [{ name := some "MessageBoxA", ordinal := none }] }]
     { dll := none, imports := [] }
     [{ dll := some "KERNEL32.dll", imports := [] }]
     (by decide) rfl⟩

/-- C3 counterexample: with a malformed first entry followed by a
well-formed `KERNEL32.dll` entry, the claim keeps the well-formed
remainder of the table; the code returns an empty table, the later module
is absent. -/
theorem C3_counterexample :
    ¬ ("KERNEL32.dll" ∈
        (analyze_imports (some
          [{ dll := none, imports := [] },
           { dll := some "KERNEL32.dll", imports := [] }])).map
          (fun m => m.dll)) := by
  decide

/-- C4: the resource walker never descends more than three directory
levels: its output on any input, however the input nests below the third
level, equals its output on the input truncated below depth 3 (children of
every language-level directory entry removed).  Leaf records are emitted
only for data descriptors reached at depth 3. -/
theorem C4_resource_depth (root : Option (List ResEntry)) :
    analyze_resources (root.map truncateDepth3) = analyze_resources root := by
  cases root with
  | none => rfl
  | some entries =>
    have h : (some entries).map truncateDepth3 = some (truncateDepth3 entries) := rfl
    rw [h]
    simp only [analyze_resources, truncateDepth3]
    rw [walkTypes_prune]

/-- C5: loading (header plus section-table parsing inside `pefile.PE`)
runs first; when it fails, `run_analysis` reports failure with no component
output recorded, and reported failure happens exactly when loading
failed. -/
theorem C5_header_first (fileSize : Nat) :
    run_analysis fileSize none = (false, emptyResults)
    ∧ ∀ pe : Option PEData,
        ((run_analysis fileSize pe).1 = false ↔ pe = none) := by
  refine ⟨rfl, ?_⟩
  intro pe
  cases pe with
  | none => simp [run_analysis]
  | some p => simp [run_analysis]

/-- C6 (corrected): with the import directory absent the analysis still
succeeds and the other components are unaffected, but the imports result is
recorded as an empty list (`some []`), not as an absent table. -/
theorem C6_absent_import_dir (fileSize : Nat) (p : PEData) :
    (run_analysis fileSize (some { p with importEntries := none })).1 = true
    ∧ (run_analysis fileSize (some { p with importEntries := none })).2.imports
        = some []
    ∧ (run_analysis fileSize (some { p with importEntries := none })).2.basic_info
        = (run_analysis fileSize (some p)).2.basic_info
    ∧ (run_analysis fileSize (some { p with importEntries := none })).2.exports
        = (run_analysis fileSize (some p)).2.exports
    ∧ (run_analysis fileSize (some { p with importEntries := none })).2.strings
        = (run_analysis fileSize (some p)).2.strings
    ∧ (run_analysis fileSize (some { p with importEntries := none })).2.resources
        = (run_analysis fileSize (some p)).2.resources := by
  refine ⟨rfl, rfl, rfl, rfl, rfl, rfl⟩

/-- C6 counterexample: a loaded image whose import data directory is
absent.  The claim says the resulting import table is `None`; the code
stores the empty list under the `imports` key, so the recorded value is
`some []`, not `none`. -/
theorem C6_counterexample :
    (run_analysis 0 (some
      { machine := 332, timestamp := 0, characteristics := 0, subsystem := 2,
        dllCharacteristics := 0, entryPoint := 4096, imageBase := 4194304,
        sections := [], importEntries := none, exportSymbols := none,
        resourceRoot := none })).2.imports ≠ none := by
  simp [run_analysis]

/-- C7 (corrected): the code strips all trailing NUL bytes
(`rstrip('\x00')`) instead of truncating at the first NUL; the two agree
exactly on name fields that are properly NUL-padded, i.e. where nothing but
NUL follows the first NUL. -/
theorem C7_section_name (nameBytes : List Nat)
    (hpad : ∀ x ∈ nameBytes.dropWhile (fun b => b != 0), x = 0) :
    decode_section_name nameBytes = specSectionName nameBytes := by
  have ht : (0 : Nat) ∉ nameBytes.takeWhile (fun b => b != 0) := by
    intro hm
    have h := List.mem_takeWhile_imp hm
    simp at h
  have hz : nameBytes.dropWhile (fun b => b != 0)
      = List.replicate (nameBytes.dropWhile (fun b => b != 0)).length 0 :=
    List.eq_replicate_of_mem hpad
  have hl : nameBytes = nameBytes.takeWhile (fun b => b != 0)
      ++ List.replicate (nameBytes.dropWhile (fun b => b != 0)).length 0 := by
    conv_lhs => rw [← List.takeWhile_append_dropWhile (fun b => b != 0) nameBytes]
    rw [← hz]
  rw [decode_section_name, specSectionName]
  conv_lhs => rw [hl]
  rw [rstripNul_pad _ _ ht]

/-- C7 witness: the NUL-padded name field of a `.text` section, on which
the code's behaviour and the spec's truncation coincide. -/
theorem C7_witness :
    (∀ x ∈ ([46, 116, 101, 120, 116, 0, 0, 0] : List Nat).dropWhile
        (fun b => b != 0), x = 0)
    ∧ decode_section_name [46, 116, 101, 120, 116, 0, 0, 0]
        = specSectionName [46, 116, 101, 120, 116, 0, 0, 0] :=
  ⟨by decide, C7_section_name [46, 116, 101, 120, 116, 0, 0, 0] (by decide)⟩

/-- C7 counterexample: a name field with an embedded NUL followed by more
non-NUL bytes (`.te\x00xt\x00\x00`).  The claim cuts at the first NUL,
giving `.te`; the code only strips trailing NULs and keeps the embedded one
(`.te\x00xt`). -/
theorem C7_counterexample :
    decode_section_name [46, 116, 101, 0, 120, 116, 0, 0]
      ≠ specSectionName [46, 116, 101, 0, 120, 116, 0, 0] := by
  decide

/-- C8 (corrected): with one positional argument, a missing path exits
with status 1 and a diagnostic, and a successful analysis writes the report
and prints its output path — but when loading fails (`InvalidFormat`), the
code prints `Analysis failed` and falls off the end of `main`, so the
process exits with status 0, not non-zero. -/
theorem C8_command_surface (path stem : String) (fileSize : Nat) :
    (∀ pe : Option PEData,
        (mainRun 2 false path stem fileSize pe).exitCode = 1
        ∧ (mainRun 2 false path stem fileSize pe).messages
            = ["File not found: " ++ path])
    ∧ (mainRun 2 true path stem fileSize none).exitCode = 0
    ∧ (mainRun 2 true path stem fileSize none).messages
        = ["Error loading PE file", "Analysis failed"]
    ∧ (mainRun 2 true path stem fileSize none).reportWritten = false
    ∧ ∀ p : PEData,
        (mainRun 2 true path stem fileSize (some p)).exitCode = 0
        ∧ (mainRun 2 true path stem fileSize (some p)).reportWritten = true
        ∧ (mainRun 2 true path stem fileSize (some p)).messages
            = ["Analyzing PE file...",
               "Analysis saved to: " ++ stem ++ "_analysis.txt"] := by
  refine ⟨?_, ?_, ?_, ?_, ?_⟩ <;> simp [mainRun, run_analysis]

/-- C8 counterexample: the path exists but its content is not a loadable
image, so analysis fails; the claim requires a non-zero exit status, but
the process exits with status 0. -/
theorem C8_counterexample :
    ¬ (0 < (mainRun 2 true "w3champions.exe" "w3champions" 0 none).exitCode) := by
  decide

/-- C9: string extraction is idempotent and deterministic as a state
update: performing the `analysis_results['strings']` assignment twice on
the same immutable buffer leaves the same state as performing it once, and
the recorded ordered list does not depend on the prior state. -/
theorem C9_extract_idempotent (sections : List (List Nat)) (minLen : Nat)
    (res : AnalysisResults) :
    extractStringsUpdate sections minLen (extractStringsUpdate sections minLen res)
      = extractStringsUpdate sections minLen res
    ∧ ∀ res2 : AnalysisResults,
        (extractStringsUpdate sections minLen res).strings
          = (extractStringsUpdate sections minLen res2).strings :=
  ⟨rfl, fun _ => rfl⟩

/-- C10: the extracted-string collection deduplicates globally across the
whole image: the result has no duplicates, it is a subsequence of the
stream of decoded runs in section scan order (so each surviving entry is
the first occurrence), and it contains a string exactly when some section
has a qualifying run decoding to it. -/
theorem C10_global_dedup (secs : List (List Nat)) (n : Nat) :
    (extract_strings secs n).Nodup
    ∧ (extract_strings secs n).Sublist (allRunStrings secs n)
    ∧ ∀ s : String, s ∈ extract_strings secs n ↔ s ∈ allRunStrings secs n := by
  refine ⟨?_, ?_, ?_⟩
  · rw [extract_strings_eq_dedup, dedupFirst]
    exact foldl_insertNew_nodup _ [] List.nodup_nil
  · obtain ⟨t, ht, he⟩ := foldl_insertNew_sublist (allRunStrings secs n) []
    rw [extract_strings_eq_dedup, dedupFirst, he]
    simpa using ht
  · intro s
    rw [extract_strings_eq_dedup, dedupFirst, foldl_insertNew_mem]
    simp
